import Mathlib

/-!
# PixelForge Nexus — verification of the authorization and versioning core

Shallow embedding of the PixelForge Nexus backend (a Next.js / Supabase
project management system).  The embedding follows the repository's server
actions (`src/actions/projects.ts`, the document and user action files) and
its own formal authorization model
(`formal-methods/authorization-model.tla`).  External collaborators
(Supabase resource store, blob storage, auth layer) are modelled as explicit
state inside a single `DB` record; row-level-security behaviour and the
`create_document_version` stored procedure, whose SQL migration file
(`supabase/migrations/001_initial_schema.sql`) is not part of the sources,
are modelled from the specification where noted.
-/

namespace PixelForge

abbrev UserId := String
abbrev ProjectId := String
abbrev DocId := Nat

/-- The three application roles (`AppRole` in `types/database`). -/
inductive Role where
  | admin
  | projectLead
  | developer
deriving DecidableEq, Repr

/-- CRUD actions of the TLA⁺ authorization model. -/
inductive Action where
  | create
  | read
  | update
  | delete
deriving DecidableEq, Repr

/-- Protected resource kinds of the TLA⁺ authorization model. -/
inductive Resource where
  | projects
  | projectMembers
  | documents
  | documentVersions
  | users
deriving DecidableEq, Repr

/-- Context record carried by a permission query (`ctx.project_id`,
`ctx.document_id` in the TLA⁺ model). -/
structure Ctx where
  projectId : ProjectId
  documentId : DocId
deriving DecidableEq, Repr

/-- One row of the `user_roles` table (`UserRole` in `types/database`):
a separate one-to-many association from users to roles. -/
structure RoleRow where
  user_id : UserId
  role : Role
deriving DecidableEq, Repr

/-- One row of the `projects` table (deadline timestamps are kept as the
strings the actions store; the `Date`/ISO conversion is library behaviour
outside the model). -/
structure ProjectRow where
  id : ProjectId
  name : String
  description : String
  deadline : String
  status : String
  lead_id : Option UserId
  created_by : UserId
deriving DecidableEq, Repr

/-- One row of the `project_members` table. -/
structure MemberRow where
  project_id : ProjectId
  user_id : UserId
deriving DecidableEq, Repr

/-- One row of the `documents` table. -/
structure DocumentRow where
  id : DocId
  project_id : ProjectId
  title : String
  current_version : Nat
  created_by : UserId
deriving DecidableEq, Repr

/-- One row of the `document_versions` table. -/
structure VersionRow where
  document_id : DocId
  version : Nat
  storage_path : String
  file_name : String
  file_size : Nat
  mime_type : String
  uploaded_by : UserId
deriving DecidableEq, Repr

/-- An account in the external auth layer (`auth.users`). -/
structure AuthUser where
  id : UserId
  email : String
deriving DecidableEq, Repr

/-- A file taken from the multipart form data (`formData.get('file')`). -/
structure UploadFile where
  name : String
  size : Nat
  mime : String
deriving DecidableEq, Repr

/-- The whole observable world: resource-store tables, the blob store's
occupied paths, the auth layer's accounts, a fresh-id counter for generated
document ids, and a set of injected fault tags standing for transient
store failures (a tag present in `faults` makes the correspondingly named
external write fail). -/
structure DB where
  auth_users : List AuthUser
  user_roles : List RoleRow
  projects : List ProjectRow
  project_members : List MemberRow
  documents : List DocumentRow
  document_versions : List VersionRow
  next_doc_id : DocId
  storage_objects : List String
  faults : List String
deriving DecidableEq, Repr

/-- Role lookup as every server action performs it:
`from('user_roles').select('role').eq('user_id', id).single()`. -/
def roleOf (db : DB) (u : UserId) : Option Role :=
  (db.user_roles.find? (fun r => r.user_id == u)).map (fun r => r.role)

/-- `IsLeadOf(u, pid)` of the TLA⁺ model. -/
def isLeadOf (db : DB) (u : UserId) (pid : ProjectId) : Bool :=
  db.projects.any (fun p => p.id == pid && p.lead_id == some u)

/-- `IsMemberOf(u, pid)` of the TLA⁺ model. -/
def isMemberOf (db : DB) (u : UserId) (pid : ProjectId) : Bool :=
  db.project_members.any (fun m => m.project_id == pid && m.user_id == u)

/-- `ProjectIdsLedBy(u)` of the TLA⁺ model. -/
def projectIdsLedBy (db : DB) (u : UserId) : List ProjectId :=
  (db.projects.filter (fun p => p.lead_id == some u)).map (fun p => p.id)

/-- `ProjectIdsMemberOf(u)` of the TLA⁺ model. -/
def projectIdsMemberOf (db : DB) (u : UserId) : List ProjectId :=
  (db.project_members.filter (fun m => m.user_id == u)).map (fun m => m.project_id)

/-- `DocIdsInLeadProjects(u)` of the TLA⁺ model. -/
def docIdsInLedProjects (db : DB) (u : UserId) : List DocId :=
  (db.documents.filter
    (fun d => (projectIdsLedBy db u).contains d.project_id)).map (fun d => d.id)

/-- `DocIdsInMemberProjects(u)` of the TLA⁺ model. -/
def docIdsInMemberProjects (db : DB) (u : UserId) : List DocId :=
  (db.documents.filter
    (fun d => (projectIdsMemberOf db u).contains d.project_id)).map (fun d => d.id)

/-- The project-lead disjuncts of `HasPermission` in
`formal-methods/authorization-model.tla`. -/
def leadPermission (db : DB) (u : UserId) (a : Action) (r : Resource)
    (ctx : Ctx) : Bool :=
  match r, a with
  | .projects, .read => isLeadOf db u ctx.projectId || isMemberOf db u ctx.projectId
  | .projects, .update => isLeadOf db u ctx.projectId
  | .projects, _ => false
  | .projectMembers, _ => isLeadOf db u ctx.projectId
  | .documents, _ => isLeadOf db u ctx.projectId
  | .documentVersions, _ => (docIdsInLedProjects db u).contains ctx.documentId
  | .users, _ => false

/-- The developer disjuncts of `HasPermission` in
`formal-methods/authorization-model.tla`: read-only, membership-scoped. -/
def developerPermission (db : DB) (u : UserId) (a : Action) (r : Resource)
    (ctx : Ctx) : Bool :=
  match r, a with
  | .projects, .read => isMemberOf db u ctx.projectId
  | .projectMembers, .read => isMemberOf db u ctx.projectId
  | .documents, .read => isMemberOf db u ctx.projectId
  | .documentVersions, .read => (docIdsInMemberProjects db u).contains ctx.documentId
  | _, _ => false

/-- Case split of `HasPermission` over the actor's role value. -/
def rolePermission (db : DB) (u : UserId) (ro : Option Role) (a : Action)
    (r : Resource) (ctx : Ctx) : Bool :=
  match ro with
  | some .admin => true
  | some .projectLead => leadPermission db u a r ctx
  | some .developer => developerPermission db u a r ctx
  | none => false

/-- `HasPermission(u, action, resource, ctx)` from
`formal-methods/authorization-model.tla` — the repository's central
authorization predicate (the spec's `Decide`). -/
def hasPermission (db : DB) (u : UserId) (a : Action) (r : Resource)
    (ctx : Ctx) : Bool :=
  rolePermission db u (roleOf db u) a r ctx

/-- `getProjects` from `src/actions/projects.ts`: authenticates, reads the
caller's role (defaulting a missing role row to `developer`), fetches every
project through the privileged admin client, then filters at application
level: non-admins keep only projects they lead or are a member of. -/
def getProjects (db : DB) (user : Option UserId) :
    Except String (List ProjectRow) :=
  match user with
  | none => .error "Unauthorized"
  | some uid =>
    let userRole := (roleOf db uid).getD .developer
    let allRows := db.projects
    let filtered :=
      if userRole = Role.admin then allRows
      else allRows.filter (fun p =>
        p.lead_id == some uid ||
        db.project_members.any (fun m => m.project_id == p.id && m.user_id == uid))
    .ok filtered

/-- `getProject` from `src/actions/projects.ts`: authenticates, reads the
caller's role (defaulting a missing role row to `developer`), fetches the
project through the privileged admin client, and returns it when the caller
is admin, the project's lead, or one of its members. -/
def getProject (db : DB) (user : Option UserId) (projectId : ProjectId) :
    Except String ProjectRow :=
  match user with
  | none => .error "Unauthorized"
  | some uid =>
    let userRole := (roleOf db uid).getD .developer
    match db.projects.find? (fun p => p.id == projectId) with
    | none => .error "Project not found"
    | some p =>
      if userRole = Role.admin then .ok p
      else if p.lead_id == some uid then .ok p
      else if db.project_members.any
          (fun m => m.project_id == projectId && m.user_id == uid) then
        .ok p
      else .error "Access denied - you are not a member of this project"

/-! ## Sample states used by counterexamples and witnesses -/

/-- A state with one project led by `lead1`, whose only member `u1` has **no
role row**; `admin1` is the sole admin. -/
def sampleNoRoleDB : DB :=
  { auth_users := [⟨"admin1", "a@x.io"⟩, ⟨"u1", "u@x.io"⟩]
    user_roles := [⟨"admin1", Role.admin⟩]
    projects := [⟨"p1", "Game", "a game project", "2031-01-01", "active", some "lead1", "admin1"⟩]
    project_members := [⟨"p1", "u1"⟩]
    documents := []
    document_versions := []
    next_doc_id := 1
    storage_objects := []
    faults := [] }

/-- A document of project `p1` sitting at version 1. -/
def sampleDoc7 : DocumentRow := ⟨7, "p1", "Design Doc", 1, "lead1"⟩

/-- A state containing `sampleDoc7` with its version-1 row and blob object,
led by `lead1` (a project lead). -/
def sampleVersionedDB : DB :=
  { auth_users := [⟨"admin1", "a@x.io"⟩, ⟨"lead1", "l@x.io"⟩]
    user_roles := [⟨"admin1", Role.admin⟩, ⟨"lead1", Role.projectLead⟩]
    projects := [⟨"p1", "Game", "a game project", "2031-01-01", "active", some "lead1", "admin1"⟩]
    project_members := []
    documents := [sampleDoc7]
    document_versions := [⟨7, 1, "p1/7/v1-a.png", "a.png", 5, "image/png", "lead1"⟩]
    next_doc_id := 8
    storage_objects := ["p1/7/v1-a.png"]
    faults := [] }

/-! ## C1 — fail-closed behaviour for actors with no role row -/

/-- C1, counterexample: the claim says an actor with no role row receives no
project data from `getProjects`, yet `u1` in `sampleNoRoleDB` has no role row
and still receives project `p1` (missing roles default to `developer` and the
application-level filter admits members). -/
theorem c1_noRole_gets_project_data :
    roleOf sampleNoRoleDB "u1" = none ∧
    getProjects sampleNoRoleDB (some "u1") =
      .ok [⟨"p1", "Game", "a game project", "2031-01-01", "active", some "lead1", "admin1"⟩] ∧
    getProject sampleNoRoleDB (some "u1") "p1" =
      .ok ⟨"p1", "Game", "a game project", "2031-01-01", "active", some "lead1", "admin1"⟩ := by
  refine ⟨rfl, rfl, rfl⟩

/-- C1 (amended): the decision engine `hasPermission` does deny every action
for an actor with no role row, but `getProjects` and `getProject` treat a
missing role row as the `developer` role: such an actor receives exactly the
projects it leads or is a member of (hence no data only when it leads none
and belongs to none). -/
theorem c1_noRole_decide_deny_reads_membership_scoped
    (db : DB) (u : UserId) (h : roleOf db u = none) :
    (∀ a r ctx, hasPermission db u a r ctx = false) ∧
    (∀ l, getProjects db (some u) = .ok l →
      ∀ p, p ∈ l ↔ (p ∈ db.projects ∧
        (p.lead_id = some u ∨
          ∃ m ∈ db.project_members, m.project_id = p.id ∧ m.user_id = u))) ∧
    (∀ pid p, getProject db (some u) pid = .ok p →
      p.lead_id = some u ∨
        ∃ m ∈ db.project_members, m.project_id = p.id ∧ m.user_id = u) := by
  refine ⟨?_, ?_, ?_⟩
  · intro a r ctx
    simp only [hasPermission, h, rolePermission]
  · intro l hl p
    simp only [getProjects, h, Option.getD_none,
      if_neg (by decide : ¬ (Role.developer = Role.admin)),
      Except.ok.injEq] at hl
    subst hl
    simp only [List.mem_filter, Bool.or_eq_true, beq_iff_eq, List.any_eq_true,
      Bool.and_eq_true]
  · intro pid p hp
    simp only [getProject, h, Option.getD_none] at hp
    split at hp
    · simp at hp
    · rw [if_neg (by decide : ¬ (Role.developer = Role.admin))] at hp
      split at hp
      · simp only [Except.ok.injEq] at hp
        subst hp
        rename_i hlead
        exact Or.inl (by simpa using hlead)
      · split at hp
        · simp only [Except.ok.injEq] at hp
          subst hp
          rename_i hfind _ hmem
          simp only [List.any_eq_true, Bool.and_eq_true, beq_iff_eq] at hmem
          obtain ⟨m, hm, h1, h2⟩ := hmem
          have hqid := List.find?_some hfind
          simp only [beq_iff_eq] at hqid
          exact Or.inr ⟨m, hm, by rw [h1, hqid], h2⟩
        · simp at hp

/-- C1 witness: the amended theorem applied to `sampleNoRoleDB` and `u1`. -/
theorem c1_witness :
    hasPermission sampleNoRoleDB "u1" Action.read Resource.projects ⟨"p1", 0⟩ = false :=
  (c1_noRole_decide_deny_reads_membership_scoped sampleNoRoleDB "u1" rfl).1
    Action.read Resource.projects ⟨"p1", 0⟩

/-! ## Document workflow (`src/actions/documents.ts`) -/

/-- The deterministic storage path convention
`{projectId}/{documentId}/v{version}-{originalFileName}` used by both
`uploadDocument` and `uploadNewVersion`. -/
def mkStoragePath (projectId : ProjectId) (documentId : DocId) (version : Nat)
    (fileName : String) : String :=
  projectId ++ "/" ++ toString documentId ++ "/v" ++ toString version ++ "-" ++ fileName

/-- The blob store's `upload(path, file, { upsert: false })`: rejected when
the path is already occupied (`upsert: false` semantics), and failing when
the `storage_put` outage tag is injected (a simulated Blob Store failure);
otherwise the path becomes occupied. -/
def storagePut (db : DB) (path : String) : Except String DB :=
  if db.storage_objects.contains path then .error "The resource already exists"
  else if db.faults.contains "storage_put" then .error "storage outage"
  else .ok { db with storage_objects := path :: db.storage_objects }

/-- `uploadDocument` from the documents action file: validates the file and
title, inserts the Document row with `current_version = 1`, uploads the file
to `{projectId}/{docId}/v1-{name}`, deleting the just-created row again when
the upload fails, and finally inserts the Version(1) row. -/
def uploadDocument (db : DB) (user : Option UserId) (projectId : ProjectId)
    (title : String) (file : Option UploadFile) : Except String DocId × DB :=
  match user with
  | none => (.error "Unauthorized", db)
  | some uid =>
    match file with
    | none => (.error "Please select a file to upload", db)
    | some f =>
      if f.size = 0 then (.error "Please select a file to upload", db)
      else if title.length < 2 then
        (.error "Document title must be at least 2 characters", db)
      else if 52428800 < f.size then
        (.error "File size must be less than 50MB", db)
      else if db.faults.contains "insert_documents" then
        (.error "document insert failed", db)
      else
        let docId := db.next_doc_id
        let db1 := { db with
          documents := db.documents ++ [⟨docId, projectId, title, 1, uid⟩]
          next_doc_id := db.next_doc_id + 1 }
        let storagePath := mkStoragePath projectId docId 1 f.name
        match storagePut db1 storagePath with
        | .error e =>
          let db2 := { db1 with
            documents := db1.documents.filter (fun d => !(d.id == docId)) }
          (.error ("Upload failed: " ++ e), db2)
        | .ok db2 =>
          if db2.faults.contains "insert_document_versions" then
            (.error "Version record failed: version insert failed", db2)
          else
            let mt := if f.mime = "" then "application/octet-stream" else f.mime
            (.ok docId,
              { db2 with document_versions :=
                  db2.document_versions ++ [⟨docId, 1, storagePath, f.name, f.size, mt, uid⟩] })

/-- Modelled from the spec: the `create_document_version` stored procedure
lives in `supabase/migrations/001_initial_schema.sql`, which is not among the
sources (only its call site and the repository's state-machine document
describe it).  Per the specification it performs "insert Version(N+1) AND
set `currentVersion = N+1`" as one single atomic conditional write: the
version-row insert is rejected by the `(document_id, version)` uniqueness of
the version sequence when a racing caller has already committed that number
(the lost-race `ConflictError`), and otherwise the row insert and the
`current_version` bump land together. -/
def create_document_version (db : DB) (documentId : DocId) (version : Nat)
    (storagePath fileName : String) (fileSize : Nat) (mimeType : String)
    (uploadedBy : UserId) : Except String DB :=
  if db.document_versions.any
      (fun v => v.document_id == documentId && v.version == version) then
    .error "duplicate key value violates unique constraint"
  else
    match db.documents.find? (fun d => d.id == documentId) with
    | none => .error "document not found"
    | some _ =>
      .ok { db with
        documents := db.documents.map (fun d =>
          if d.id == documentId then { d with current_version := version } else d)
        document_versions := db.document_versions ++
          [⟨documentId, version, storagePath, fileName, fileSize, mimeType, uploadedBy⟩] }

/-- `uploadNewVersion` from the documents action file: validates the file,
fetches the document to read `current_version = N`, computes
`newVersion = N + 1`, uploads to `{projectId}/{documentId}/v{N+1}-{name}`,
then atomically inserts the version row and bumps `current_version` through
the `create_document_version` procedure. -/
def uploadNewVersion (db : DB) (user : Option UserId) (documentId : DocId)
    (file : Option UploadFile) : Except String Unit × DB :=
  match user with
  | none => (.error "Unauthorized", db)
  | some uid =>
    match file with
    | none => (.error "Please select a file to upload", db)
    | some f =>
      if f.size = 0 then (.error "Please select a file to upload", db)
      else if 52428800 < f.size then
        (.error "File size must be less than 50MB", db)
      else
        match db.documents.find? (fun d => d.id == documentId) with
        | none => (.error "Document not found", db)
        | some doc =>
          let newVersion := doc.current_version + 1
          let storagePath := mkStoragePath doc.project_id documentId newVersion f.name
          match storagePut db storagePath with
          | .error e => (.error ("Upload failed: " ++ e), db)
          | .ok db1 =>
            let mt := if f.mime = "" then "application/octet-stream" else f.mime
            match create_document_version db1 documentId newVersion storagePath
                f.name f.size mt uid with
            | .error e => (.error ("Version creation failed: " ++ e), db1)
            | .ok db2 => (.ok (), db2)

/-! ## C7 — validation failures have no side effect -/

/-- C7: when the file is absent or empty, the title shorter than two
characters, or the file larger than 50 MiB (52,428,800 bytes),
`uploadDocument` returns an error and the whole state — documents, blob
store, everything — is untouched. -/
theorem c7_validation_no_side_effect (db : DB) (uid : UserId)
    (projectId : ProjectId) (title : String) (file : Option UploadFile)
    (h : file = none ∨ title.length < 2 ∨
      ∃ f, file = some f ∧ (f.size = 0 ∨ 52428800 < f.size)) :
    (∃ e, (uploadDocument db (some uid) projectId title file).1 = .error e) ∧
    (uploadDocument db (some uid) projectId title file).2 = db := by
  rcases hfile : file with _ | f
  · simp [uploadDocument]
  · subst hfile
    by_cases h0 : f.size = 0
    · simp [uploadDocument, h0]
    · by_cases ht : title.length < 2
      · simp [uploadDocument, h0, ht]
      · have hsz : 52428800 < f.size := by
          rcases h with h | h | ⟨g, hg, hs⟩
          · cases h
          · exact absurd h ht
          · cases hg
            rcases hs with hs | hs
            · exact absurd hs h0
            · exact hs
        simp [uploadDocument, h0, ht, hsz]

/-- C7 witness: `Create(title="AB", file=61 MiB)` is rejected with no state
change (61 MiB = 63,963,136 bytes). -/
theorem c7_witness :
    ((some (⟨"art.psd", 63963136, "image/vnd.adobe.photoshop"⟩ : UploadFile) = none ∨
      ("AB" : String).length < 2 ∨
      ∃ f, some (⟨"art.psd", 63963136, "image/vnd.adobe.photoshop"⟩ : UploadFile) = some f ∧
        (f.size = 0 ∨ 52428800 < f.size)) ∧
    ((∃ e, (uploadDocument sampleNoRoleDB (some "admin1") "p1" "AB"
        (some ⟨"art.psd", 63963136, "image/vnd.adobe.photoshop"⟩)).1 = .error e) ∧
      (uploadDocument sampleNoRoleDB (some "admin1") "p1" "AB"
        (some ⟨"art.psd", 63963136, "image/vnd.adobe.photoshop"⟩)).2 = sampleNoRoleDB)) :=
  ⟨Or.inr (Or.inr ⟨_, rfl, Or.inr (by decide)⟩),
    c7_validation_no_side_effect sampleNoRoleDB "admin1" "p1" "AB"
      (some ⟨"art.psd", 63963136, "image/vnd.adobe.photoshop"⟩)
      (Or.inr (Or.inr ⟨_, rfl, Or.inr (by decide)⟩))⟩

/-! ## C8 — compensating rollback when the initial upload fails -/

/-- Fresh generated ids never collide with existing document rows. -/
def freshDocIds (db : DB) : Prop :=
  ∀ d ∈ db.documents, d.id ≠ db.next_doc_id

/-- C8: if `uploadDocument` passes validation, inserts the Document row, and
the blob upload then fails (path occupied or simulated outage), the
just-created row is deleted again: the call returns a storage error and
documents, versions and blob store are exactly as before. -/
theorem c8_upload_failure_rolls_back_document (db : DB) (uid : UserId)
    (projectId : ProjectId) (title : String) (f : UploadFile)
    (h0 : f.size ≠ 0) (ht : ¬ title.length < 2) (hsz : ¬ 52428800 < f.size)
    (hnofault : "insert_documents" ∉ db.faults)
    (hfresh : freshDocIds db)
    (hupfail :
      mkStoragePath projectId db.next_doc_id 1 f.name ∈ db.storage_objects
      ∨ "storage_put" ∈ db.faults) :
    (∃ e, (uploadDocument db (some uid) projectId title (some f)).1 =
      .error ("Upload failed: " ++ e)) ∧
    (uploadDocument db (some uid) projectId title (some f)).2.documents = db.documents ∧
    (uploadDocument db (some uid) projectId title (some f)).2.document_versions =
      db.document_versions ∧
    (uploadDocument db (some uid) projectId title (some f)).2.storage_objects =
      db.storage_objects := by
  have hkeep : db.documents.filter (fun d => !(d.id == db.next_doc_id)) = db.documents :=
    List.filter_eq_self.mpr (fun d hd => by simp [hfresh d hd])
  by_cases hocc : mkStoragePath projectId db.next_doc_id 1 f.name ∈ db.storage_objects
  · simp [uploadDocument, h0, ht, hsz, hnofault, storagePut, hocc,
      List.filter_append, hkeep]
    exact ⟨"The resource already exists", by decide⟩
  · have hfault : "storage_put" ∈ db.faults := by
      rcases hupfail with h | h
      · exact absurd h hocc
      · exact h
    simp [uploadDocument, h0, ht, hsz, hnofault, storagePut, hocc, hfault,
      List.filter_append, hkeep]
    exact ⟨"storage outage", by decide⟩

/-- C8 witness: a concrete state whose target path `p1/1/v1-a.png` is already
occupied; the document insert is rolled back. -/
theorem c8_witness :
    ((∃ e, (uploadDocument
        { sampleNoRoleDB with storage_objects := ["p1/1/v1-a.png"] }
        (some "admin1") "p1" "Concept" (some ⟨"a.png", 100, "image/png"⟩)).1 =
      .error ("Upload failed: " ++ e)) ∧
    (uploadDocument { sampleNoRoleDB with storage_objects := ["p1/1/v1-a.png"] }
        (some "admin1") "p1" "Concept" (some ⟨"a.png", 100, "image/png"⟩)).2.documents =
      ({ sampleNoRoleDB with storage_objects := ["p1/1/v1-a.png"] } : DB).documents ∧
    (uploadDocument { sampleNoRoleDB with storage_objects := ["p1/1/v1-a.png"] }
        (some "admin1") "p1" "Concept" (some ⟨"a.png", 100, "image/png"⟩)).2.document_versions =
      ({ sampleNoRoleDB with storage_objects := ["p1/1/v1-a.png"] } : DB).document_versions ∧
    (uploadDocument { sampleNoRoleDB with storage_objects := ["p1/1/v1-a.png"] }
        (some "admin1") "p1" "Concept" (some ⟨"a.png", 100, "image/png"⟩)).2.storage_objects =
      ({ sampleNoRoleDB with storage_objects := ["p1/1/v1-a.png"] } : DB).storage_objects) :=
  c8_upload_failure_rolls_back_document
    { sampleNoRoleDB with storage_objects := ["p1/1/v1-a.png"] }
    "admin1" "p1" "Concept" ⟨"a.png", 100, "image/png"⟩
    (by decide) (by decide) (by decide) (by decide)
    (fun d hd => by cases hd) (Or.inl (by decide))

/-! ## C6 — version numbers are computed, never caller-supplied -/

/-- A `current_version` bump by `create_document_version` is visible through
`find?`: updating the matching row updates exactly the row `find?` returns. -/
theorem find?_map_bump (l : List DocumentRow) (i : DocId) (n : Nat)
    (doc : DocumentRow) (h : l.find? (fun d => d.id == i) = some doc) :
    (l.map (fun d => if d.id == i then { d with current_version := n } else d)).find?
      (fun d => d.id == i) = some { doc with current_version := n } := by
  induction l with
  | nil => simp at h
  | cons a l ih =>
    cases hb : (a.id == i) with
    | true =>
      simp only [List.find?_cons, hb] at h
      cases h
      simp only [List.map_cons]
      rw [if_pos hb, List.find?_cons]
      rw [show (({ doc with current_version := n } : DocumentRow).id == i) = true from hb]
    | false =>
      simp only [List.find?_cons, hb] at h
      simp only [List.map_cons]
      rw [if_neg (by simp [hb]), List.find?_cons]
      rw [show (a.id == i) = false from hb]
      exact ih h

/-- `find?_map_bump` restated with the propositional guard `simp`
normalizes the update function to. -/
theorem find?_map_bump_eq (l : List DocumentRow) (i : DocId) (n : Nat)
    (doc : DocumentRow) (h : l.find? (fun d => d.id == i) = some doc) :
    (l.map (fun d => if d.id = i then { d with current_version := n } else d)).find?
      (fun d => d.id == i) = some { doc with current_version := n } := by
  have hmap : (fun (d : DocumentRow) =>
        if d.id = i then { d with current_version := n } else d) =
      (fun (d : DocumentRow) =>
        if d.id == i then { d with current_version := n } else d) := by
    funext d
    by_cases hd : d.id = i <;> simp [hd]
  rw [hmap]
  exact find?_map_bump l i n doc h

/-- C6: for a document at `current_version = N`, a successful
`uploadNewVersion` appends exactly the version row `N + 1` with the
deterministic storage path `{projectId}/{documentId}/v{N+1}-{fileName}`
(the version never comes from caller input — the action takes none), and the
document's `current_version` becomes `N + 1`. -/
theorem c6_new_version_is_succ_with_deterministic_path (db : DB) (uid : UserId)
    (documentId : DocId) (f : UploadFile) (doc : DocumentRow)
    (hdoc : db.documents.find? (fun d => d.id == documentId) = some doc)
    (hok : (uploadNewVersion db (some uid) documentId (some f)).1 = .ok ()) :
    (uploadNewVersion db (some uid) documentId (some f)).2.document_versions =
      db.document_versions ++
        [⟨documentId, doc.current_version + 1,
          mkStoragePath doc.project_id documentId (doc.current_version + 1) f.name,
          f.name, f.size,
          (if f.mime = "" then "application/octet-stream" else f.mime), uid⟩] ∧
    ((uploadNewVersion db (some uid) documentId (some f)).2.documents.find?
        (fun d => d.id == documentId)).map (fun d => d.current_version) =
      some (doc.current_version + 1) := by
  by_cases h0 : f.size = 0
  · simp [uploadNewVersion, h0] at hok
  · by_cases hsz : 52428800 < f.size
    · simp [uploadNewVersion, h0, hsz] at hok
    · by_cases hocc :
          mkStoragePath doc.project_id documentId (doc.current_version + 1) f.name
            ∈ db.storage_objects
      · simp [uploadNewVersion, h0, hsz, hdoc, storagePut, hocc] at hok
      · by_cases hfault : "storage_put" ∈ db.faults
        · simp [uploadNewVersion, h0, hsz, hdoc, storagePut, hocc, hfault] at hok
        · by_cases hdup : db.document_versions.any
              (fun v => v.document_id == documentId && v.version == doc.current_version + 1) = true
          · simp [uploadNewVersion, h0, hsz, hdoc, storagePut, hocc, hfault,
              create_document_version, hdup] at hok
          have hbump := find?_map_bump db.documents documentId (doc.current_version + 1) doc hdoc
          have hres : (uploadNewVersion db (some uid) documentId (some f)).2 =
              { db with
                documents := db.documents.map (fun d =>
                  if d.id == documentId then
                    { d with current_version := doc.current_version + 1 }
                  else d)
                document_versions := db.document_versions ++
                  [⟨documentId, doc.current_version + 1,
                    mkStoragePath doc.project_id documentId (doc.current_version + 1) f.name,
                    f.name, f.size,
                    (if f.mime = "" then "application/octet-stream" else f.mime), uid⟩]
                storage_objects :=
                  mkStoragePath doc.project_id documentId (doc.current_version + 1) f.name
                    :: db.storage_objects } := by
            simp [uploadNewVersion, h0, hsz, hdoc, storagePut, hocc, hfault,
              create_document_version, hdup]
          rw [hres]
          refine ⟨rfl, ?_⟩
          rw [show ({ db with
                documents := db.documents.map (fun d =>
                  if d.id == documentId then
                    { d with current_version := doc.current_version + 1 }
                  else d)
                document_versions := db.document_versions ++
                  [⟨documentId, doc.current_version + 1,
                    mkStoragePath doc.project_id documentId (doc.current_version + 1) f.name,
                    f.name, f.size,
                    (if f.mime = "" then "application/octet-stream" else f.mime), uid⟩]
                storage_objects :=
                  mkStoragePath doc.project_id documentId (doc.current_version + 1) f.name
                    :: db.storage_objects } : DB).documents =
              db.documents.map (fun d =>
                  if d.id == documentId then
                    { d with current_version := doc.current_version + 1 }
                  else d) from rfl]
          rw [hbump]
          rfl

/-- C6 witness: a concrete document at version 1 receives version 2 at path
`p1/7/v2-b.png`. -/
theorem c6_witness :
    ((sampleVersionedDB.documents.find? (fun d => d.id == 7) = some sampleDoc7) ∧
    ((uploadNewVersion sampleVersionedDB (some "lead1") 7
        (some ⟨"b.png", 9, "image/png"⟩)).1 = .ok ()) ∧
    (uploadNewVersion sampleVersionedDB (some "lead1") 7
        (some ⟨"b.png", 9, "image/png"⟩)).2.document_versions =
      sampleVersionedDB.document_versions ++
        [⟨7, 2, mkStoragePath "p1" 7 2 "b.png", "b.png", 9, "image/png", "lead1"⟩] ∧
    ((uploadNewVersion sampleVersionedDB (some "lead1") 7
        (some ⟨"b.png", 9, "image/png"⟩)).2.documents.find?
        (fun d => d.id == 7)).map (fun d => d.current_version) = some 2) := by
  refine ⟨rfl, rfl, ?_, ?_⟩
  · have := c6_new_version_is_succ_with_deterministic_path sampleVersionedDB "lead1" 7
      ⟨"b.png", 9, "image/png"⟩ sampleDoc7 rfl rfl
    exact this.1
  · have := c6_new_version_is_succ_with_deterministic_path sampleVersionedDB "lead1" 7
      ⟨"b.png", 9, "image/png"⟩ sampleDoc7 rfl rfl
    exact this.2

/-! ## C9 — a failed upload leaves the database untouched -/

/-- C9: when `uploadNewVersion`'s blob upload fails, the call returns a
storage error and the entire state — in particular `current_version` and the
version rows — is exactly the initial one. -/
theorem c9_upload_failure_leaves_state_unchanged (db : DB) (uid : UserId)
    (documentId : DocId) (f : UploadFile) (doc : DocumentRow)
    (h0 : f.size ≠ 0) (hsz : ¬ 52428800 < f.size)
    (hdoc : db.documents.find? (fun d => d.id == documentId) = some doc)
    (hupfail :
      mkStoragePath doc.project_id documentId (doc.current_version + 1) f.name
        ∈ db.storage_objects
      ∨ "storage_put" ∈ db.faults) :
    (∃ e, (uploadNewVersion db (some uid) documentId (some f)).1 =
      .error ("Upload failed: " ++ e)) ∧
    (uploadNewVersion db (some uid) documentId (some f)).2 = db := by
  by_cases hocc :
      mkStoragePath doc.project_id documentId (doc.current_version + 1) f.name
        ∈ db.storage_objects
  · simp [uploadNewVersion, h0, hsz, hdoc, storagePut, hocc]
    exact ⟨"The resource already exists", by decide⟩
  · have hfault : "storage_put" ∈ db.faults := by
      rcases hupfail with h | h
      · exact absurd h hocc
      · exact h
    simp [uploadNewVersion, h0, hsz, hdoc, storagePut, hocc, hfault]
    exact ⟨"storage outage", by decide⟩

/-- C9 witness: with a simulated blob-store outage, adding a version to the
document at version 1 changes nothing. -/
theorem c9_witness :
    ((∃ e, (uploadNewVersion { sampleVersionedDB with faults := ["storage_put"] }
        (some "lead1") 7 (some ⟨"b.png", 9, "image/png"⟩)).1 =
      .error ("Upload failed: " ++ e)) ∧
    (uploadNewVersion { sampleVersionedDB with faults := ["storage_put"] }
        (some "lead1") 7 (some ⟨"b.png", 9, "image/png"⟩)).2 =
      { sampleVersionedDB with faults := ["storage_put"] }) :=
  c9_upload_failure_leaves_state_unchanged
    { sampleVersionedDB with faults := ["storage_put"] }
    "lead1" 7 ⟨"b.png", 9, "image/png"⟩ sampleDoc7
    (by decide) (by decide) rfl (Or.inr (by decide))

/-! ## C2 — download URLs -/

/-- The blob store's `createSignedUrl(path, ttlSeconds)`: a time-limited
capability URL for the object at `path`; it fails when no object occupies
the path. -/
def signedUrl (path : String) (ttlSeconds : Nat) : String :=
  "sign/documents/" ++ path ++ "?exp=" ++ toString ttlSeconds

/-- `getDocumentDownloadUrl` from the documents action file: creates a
1-hour (3600 s) signed URL for the given storage path.  The action reads no
session and performs no permission check. -/
def getDocumentDownloadUrl (db : DB) (storagePath : String) :
    Except String String × DB :=
  if db.storage_objects.contains storagePath then
    (.ok (signedUrl storagePath 3600), db)
  else (.error "Object not found", db)

/-- C2, counterexample: `ghost` has no role row, so the decision engine
denies reading versions of document 7, yet `getDocumentDownloadUrl` happily
returns a signed URL for that document's stored object. -/
theorem c2_download_without_permission :
    hasPermission sampleVersionedDB "ghost" Action.read Resource.documentVersions
      ⟨"p1", 7⟩ = false ∧
    (getDocumentDownloadUrl sampleVersionedDB "p1/7/v1-a.png").1 =
      .ok (signedUrl "p1/7/v1-a.png" 3600) := by
  refine ⟨rfl, rfl⟩

/-- C2 (amended): `getDocumentDownloadUrl` performs no authorization check
at all: for every state and every occupied storage path it returns a
1-hour (3600 s) signed URL, whoever asks, and it changes no state. -/
theorem c2_download_url_unconditional (db : DB) (storagePath : String)
    (h : storagePath ∈ db.storage_objects) :
    (getDocumentDownloadUrl db storagePath).1 = .ok (signedUrl storagePath 3600) ∧
    (getDocumentDownloadUrl db storagePath).2 = db := by
  simp [getDocumentDownloadUrl, h]

/-- C2 witness: the amended theorem at the stored object of document 7. -/
theorem c2_witness :
    (getDocumentDownloadUrl sampleVersionedDB "p1/7/v1-a.png").1 =
      .ok (signedUrl "p1/7/v1-a.png" 3600) ∧
    (getDocumentDownloadUrl sampleVersionedDB "p1/7/v1-a.png").2 =
      sampleVersionedDB :=
  c2_download_url_unconditional sampleVersionedDB "p1/7/v1-a.png" (by decide)

/-! ## Project mutations (`src/actions/projects.ts`) under row-level security -/

/-- Modelled from the spec: the INSERT policy on `projects` of the missing
initial schema (`supabase/migrations/001_initial_schema.sql`).  Per the
lifecycle rules, projects are created by admins only. -/
def canInsertProject (db : DB) (u : UserId) : Bool :=
  decide (roleOf db u = some Role.admin)

/-- Modelled from the spec: the UPDATE policy on `projects` of the missing
initial schema — a project is updated by an admin or by the project's own
lead; like the shipped RLS patch, the policy checks the role claim and the
row scope together. -/
def canUpdateProjectRow (db : DB) (u : UserId) (p : ProjectRow) : Bool :=
  decide (roleOf db u = some Role.admin) ||
  (decide (roleOf db u = some Role.projectLead) && p.lead_id == some u)

/-- Modelled from the spec: the DELETE policy on `projects` of the missing
initial schema — admins only. -/
def canDeleteProjectRow (db : DB) (u : UserId) (_p : ProjectRow) : Bool :=
  decide (roleOf db u = some Role.admin)

/-- The data a `createProject` call brings (identifier format checks of the
zod schema are not modelled — identifiers are opaque here). -/
structure ProjectForm where
  name : String
  description : String
  deadline : String
  lead_id : Option String
deriving DecidableEq, Repr

/-- `createProjectSchema.safeParse` from `lib/validations.ts`; `dateOk`
stands for the zod deadline refinement (`new Date(val)` parses to a future
date), which reads the wall clock outside this model. -/
def createProjectValid (dateOk : String → Bool) (f : ProjectForm) : Bool :=
  2 ≤ f.name.length && f.name.length ≤ 100 &&
  10 ≤ f.description.length && f.description.length ≤ 2000 &&
  dateOk f.deadline

/-- `createProject` from `src/actions/projects.ts`: validate, authenticate,
insert a row (`lead_id: parsed.data.lead_id || null`); the insert passes row
level security only for an admin caller. -/
def createProject (db : DB) (user : Option UserId) (dateOk : String → Bool)
    (f : ProjectForm) (newId : ProjectId) : Except String Unit × DB :=
  if !(createProjectValid dateOk f) then (.error "validation failed", db)
  else match user with
  | none => (.error "Unauthorized", db)
  | some uid =>
    if canInsertProject db uid then
      (.ok (), { db with projects := db.projects ++
        [⟨newId, f.name, f.description, f.deadline, "active",
          (match f.lead_id with | some "" => none | x => x), uid⟩] })
    else
      (.error "new row violates row-level security policy for table projects", db)

/-- A partial update for `updateProject` (`Partial<{...}>` in the source). -/
structure ProjectPatch where
  name : Option String
  description : Option String
  deadline : Option String
  status : Option String
  lead_id : Option String
deriving DecidableEq, Repr

/-- Field application of `updateProject`'s `updateData`: absent and
empty-string fields are skipped (JS truthiness), except `lead_id`, where an
empty string clears the lead (`formData.lead_id || null`). -/
def applyPatch (patch : ProjectPatch) (p : ProjectRow) : ProjectRow :=
  let p1 := match patch.name with
    | some s => if s = "" then p else { p with name := s }
    | none => p
  let p2 := match patch.description with
    | some s => if s = "" then p1 else { p1 with description := s }
    | none => p1
  let p3 := match patch.deadline with
    | some s => if s = "" then p2 else { p2 with deadline := s }
    | none => p2
  let p4 := match patch.status with
    | some s => if s = "" then p3 else { p3 with status := s }
    | none => p3
  match patch.lead_id with
  | some s => { p4 with lead_id := if s = "" then none else some s }
  | none => p4

/-- `updateProject` from `src/actions/projects.ts`: an RLS-scoped
`update().eq('id', projectId)` — rows the caller may not update are silently
skipped by the policy, and the call reports success either way. -/
def updateProject (db : DB) (user : Option UserId) (projectId : ProjectId)
    (patch : ProjectPatch) : Except String Unit × DB :=
  match user with
  | none => (.error "Unauthorized", db)
  | some uid =>
    (.ok (), { db with projects := db.projects.map (fun p =>
      if p.id == projectId && canUpdateProjectRow db uid p then
        applyPatch patch p
      else p) })

/-- `deleteProject` from `src/actions/projects.ts`: an RLS-scoped
`delete().eq('id', projectId)`; deleted projects cascade to their
memberships, documents and document versions (the schema's cascading
foreign keys, per the spec's data-model invariants). -/
def deleteProject (db : DB) (user : Option UserId) (projectId : ProjectId) :
    Except String Unit × DB :=
  match user with
  | none => (.error "Unauthorized", db)
  | some uid =>
    let gone := db.projects.filter
      (fun p => p.id == projectId && canDeleteProjectRow db uid p)
    let goneIds := gone.map (fun p => p.id)
    let goneDocIds := (db.documents.filter
      (fun d => goneIds.contains d.project_id)).map (fun d => d.id)
    (.ok (),
      { db with
        projects := db.projects.filter
          (fun p => !(p.id == projectId && canDeleteProjectRow db uid p))
        project_members := db.project_members.filter
          (fun m => !(goneIds.contains m.project_id))
        documents := db.documents.filter
          (fun d => !(goneIds.contains d.project_id))
        document_versions := db.document_versions.filter
          (fun v => !(goneDocIds.contains v.document_id)) })

/-! ## C3 — developers cannot create, update or delete projects -/

/-- C3: a developer is denied Create/Update/Delete on projects by the
decision engine, and none of `createProject`, `updateProject`,
`deleteProject` changes any stored state when a developer calls them —
member of the project or not (`updateProject`/`deleteProject` report
success, but the row-level policies match no rows). -/
theorem c3_developer_project_mutations_ineffective (db : DB) (uid : UserId)
    (h : roleOf db uid = some Role.developer) :
    (∀ ctx, hasPermission db uid Action.create Resource.projects ctx = false ∧
      hasPermission db uid Action.update Resource.projects ctx = false ∧
      hasPermission db uid Action.delete Resource.projects ctx = false) ∧
    (∀ dateOk f newId, (∃ e, (createProject db (some uid) dateOk f newId).1 = .error e) ∧
      (createProject db (some uid) dateOk f newId).2 = db) ∧
    (∀ pid patch, (updateProject db (some uid) pid patch).2 = db) ∧
    (∀ pid, (deleteProject db (some uid) pid).2 = db) := by
  refine ⟨?_, ?_, ?_, ?_⟩
  · intro ctx
    simp only [hasPermission, h, rolePermission]
    exact ⟨rfl, rfl, rfl⟩
  · intro dateOk f newId
    cases hval : createProjectValid dateOk f with
    | false =>
      constructor
      · exact ⟨"validation failed", by simp [createProject, hval]⟩
      · simp [createProject, hval]
    | true =>
      constructor
      · exact ⟨"new row violates row-level security policy for table projects",
          by simp [createProject, hval, canInsertProject, h]⟩
      · simp [createProject, hval, canInsertProject, h]
  · intro pid patch
    simp [updateProject, canUpdateProjectRow, h]
  · intro pid
    simp [deleteProject, canDeleteProjectRow, h]

/-- A state with a developer `dev1` who is a member of project `p1`. -/
def sampleDevDB : DB :=
  { sampleVersionedDB with
    user_roles := [⟨"admin1", Role.admin⟩, ⟨"lead1", Role.projectLead⟩,
      ⟨"dev1", Role.developer⟩]
    project_members := [⟨"p1", "dev1"⟩] }

/-- C3 witness: the member developer `dev1` can neither update nor delete
`p1`, nor create a project, and the decision engine denies all three. -/
theorem c3_witness :
    roleOf sampleDevDB "dev1" = some Role.developer ∧
    hasPermission sampleDevDB "dev1" Action.update Resource.projects ⟨"p1", 0⟩ = false ∧
    (updateProject sampleDevDB (some "dev1") "p1"
      ⟨some "Taken over", none, none, none, none⟩).2 = sampleDevDB ∧
    (deleteProject sampleDevDB (some "dev1") "p1").2 = sampleDevDB ∧
    (createProject sampleDevDB (some "dev1") (fun _ => true)
      ⟨"Shadow", "a shadow project", "2031-01-01", none⟩ "p9").2 = sampleDevDB :=
  ⟨rfl,
    ((c3_developer_project_mutations_ineffective sampleDevDB "dev1" rfl).1 ⟨"p1", 0⟩).2.1,
    (c3_developer_project_mutations_ineffective sampleDevDB "dev1" rfl).2.2.1 "p1"
      ⟨some "Taken over", none, none, none, none⟩,
    (c3_developer_project_mutations_ineffective sampleDevDB "dev1" rfl).2.2.2 "p1",
    ((c3_developer_project_mutations_ineffective sampleDevDB "dev1" rfl).2.1
      (fun _ => true) ⟨"Shadow", "a shadow project", "2031-01-01", none⟩ "p9").2⟩

/-! ## User management (`src/actions/users.ts`) -/

/-- Modelled from the spec: the `user_roles` table of the missing initial
schema is a separate one-to-many association (`UserWithRole.user_roles` is an
array, and the spec's design notes call it one) whose only uniqueness
constraint is on the `(user_id, role)` pair — the conflict target named by
the source's `upsert(..., { onConflict: 'user_id,role' })`.  Upserting a pair
that already exists updates that row in place (no visible change); any other
pair is inserted as a new row. -/
def upsertUserRole (db : DB) (uid : UserId) (r : Role) : Except String DB :=
  if db.user_roles.any (fun row => row.user_id == uid && decide (row.role = r)) then
    .ok db
  else .ok { db with user_roles := db.user_roles ++ [⟨uid, r⟩] }

/-- All role rows of a user, in table order. -/
def rolesOf (db : DB) (u : UserId) : List Role :=
  (db.user_roles.filter (fun row => row.user_id == u)).map (fun row => row.role)

/-- `updateUserRole` from the users action file: validate, authenticate,
require the caller to be an admin, upsert the `(user_id, role)` pair; only
if the upsert errors, fall back to deleting the user's role rows and
inserting the new one. -/
def updateUserRole (db : DB) (user : Option UserId) (targetId : UserId)
    (newRole : Role) : Except String Unit × DB :=
  match user with
  | none => (.error "Unauthorized", db)
  | some uid =>
    if roleOf db uid = some Role.admin then
      match upsertUserRole db targetId newRole with
      | .ok db1 => (.ok (), db1)
      | .error _ =>
        let db1 := { db with user_roles :=
          db.user_roles.filter (fun row => !(row.user_id == targetId)) }
        (.ok (), { db1 with user_roles := db1.user_roles ++ [⟨targetId, newRole⟩] })
    else (.error "Only admins can update roles", db)

/-- A state where `u2` currently holds exactly the developer role. -/
def c4DB : DB :=
  { auth_users := [⟨"admin1", "a@x.io"⟩, ⟨"u2", "d@x.io"⟩]
    user_roles := [⟨"admin1", Role.admin⟩, ⟨"u2", Role.developer⟩]
    projects := []
    project_members := []
    documents := []
    document_versions := []
    next_doc_id := 1
    storage_objects := []
    faults := [] }

/-! ## C4 — role exclusivity under `updateUserRole` -/

/-- C4, failing input: `u2` holds the developer role and an admin moves it to
project lead.  The upsert's `(user_id, role)` conflict target does not fire
for a *different* role, so a second role row is inserted and the call
reports success: `u2` ends up holding two role rows, violating the one-role
invariant the repository's own TLA⁺ model declares
(`ExclusiveRoleAssignment`). -/
theorem c4_role_change_leaves_two_role_rows :
    rolesOf c4DB "u2" = [Role.developer] ∧
    (updateUserRole c4DB (some "admin1") "u2" Role.projectLead).1 = .ok () ∧
    rolesOf (updateUserRole c4DB (some "admin1") "u2" Role.projectLead).2 "u2" =
      [Role.developer, Role.projectLead] := by
  refine ⟨rfl, rfl, rfl⟩

/-! ## C10 — createUser keeps the account when the role insert fails -/

/-- The zod password rules of `createUserSchema`: length ≥ 8, a lowercase
letter, an uppercase letter, a digit, and a special character. -/
def passwordOk (s : String) : Bool :=
  decide (8 ≤ s.length) && s.data.any (fun c => c.isLower) &&
  s.data.any (fun c => c.isUpper) && s.data.any (fun c => c.isDigit) &&
  s.data.any (fun c => !(c.isAlpha || c.isDigit))

/-- `createUser` from the users action file: validate
(`createUserSchema.safeParse`; `emailOk` stands for zod's email format
check, a library regex outside this model), authenticate, require an admin
caller, create the auth account through the admin client (rejected when the
email is taken), then insert the role row — and on a role-insert failure
return an error *without* removing the account just created. -/
def createUser (db : DB) (user : Option UserId) (emailOk : String → Bool)
    (newId : UserId) (email pw fullName : String) (role : Role) :
    Except String UserId × DB :=
  if !(emailOk email && passwordOk pw && decide (2 ≤ fullName.length)) then
    (.error "validation failed", db)
  else match user with
  | none => (.error "Unauthorized", db)
  | some uid =>
    if roleOf db uid = some Role.admin then
      if db.auth_users.any (fun a => a.email == email) then
        (.error "email address has already been registered", db)
      else
        let db1 := { db with
          auth_users := db.auth_users ++ [(⟨newId, email⟩ : AuthUser)] }
        if db1.faults.contains "insert_user_roles" then
          (.error "User created but failed to assign role", db1)
        else
          (.ok newId, { db1 with
            user_roles := db1.user_roles ++ [(⟨newId, role⟩ : RoleRow)] })
    else (.error "Only admins can create users", db)

/-- C10: when the auth account is created but the role-row insert fails,
`createUser` returns an error yet the new account persists and the target
still has no role row at all. -/
theorem c10_role_insert_failure_keeps_account (db : DB) (uid : UserId)
    (emailOk : String → Bool) (newId : UserId) (email pw fullName : String)
    (role : Role)
    (hval : (emailOk email && passwordOk pw && decide (2 ≤ fullName.length)) = true)
    (hadm : roleOf db uid = some Role.admin)
    (hemail : ∀ a ∈ db.auth_users, a.email ≠ email)
    (hfault : "insert_user_roles" ∈ db.faults)
    (hnorole : rolesOf db newId = []) :
    (∃ e, (createUser db (some uid) emailOk newId email pw fullName role).1 = .error e) ∧
    (createUser db (some uid) emailOk newId email pw fullName role).2.auth_users =
      db.auth_users ++ [(⟨newId, email⟩ : AuthUser)] ∧
    rolesOf (createUser db (some uid) emailOk newId email pw fullName role).2 newId
      = [] := by
  have hany : db.auth_users.any (fun a => a.email == email) = false :=
    List.any_eq_false.mpr (fun a ha => by simp [hemail a ha])
  refine ⟨⟨"User created but failed to assign role", ?_⟩, ?_, ?_⟩ <;>
    simp only [createUser, hval, Bool.not_true, rolesOf] at hnorole ⊢ <;>
    simp [hadm, hany, hfault, hnorole]

/-- C10 witness: a simulated role-insert failure after creating `u9`. -/
theorem c10_witness :
    ((∃ e, (createUser { c4DB with faults := ["insert_user_roles"] } (some "admin1")
        (fun _ => true) "u9" "new@x.io" "Passw0rd!" "New Dev" Role.developer).1 =
      .error e) ∧
    (createUser { c4DB with faults := ["insert_user_roles"] } (some "admin1")
        (fun _ => true) "u9" "new@x.io" "Passw0rd!" "New Dev" Role.developer).2.auth_users =
      ({ c4DB with faults := ["insert_user_roles"] } : DB).auth_users ++
        [(⟨"u9", "new@x.io"⟩ : AuthUser)] ∧
    rolesOf (createUser { c4DB with faults := ["insert_user_roles"] } (some "admin1")
        (fun _ => true) "u9" "new@x.io" "Passw0rd!" "New Dev" Role.developer).2 "u9"
      = []) :=
  c10_role_insert_failure_keeps_account { c4DB with faults := ["insert_user_roles"] }
    "admin1" (fun _ => true) "u9" "new@x.io" "Passw0rd!" "New Dev" Role.developer
    (by decide) rfl (by decide) (by decide) rfl

/-! ## C5 — concurrent AddVersion calls never both commit the same number -/

/-- The in-flight state of one `uploadNewVersion` call that has passed
validation and fetched the document: `snapshot` is the row it read, and the
remaining atomic steps are the blob upload (`pc = 0`) and the atomic
`create_document_version` write (`pc = 1`); at `pc = 2` the call has
finished, with `result` recording its outcome. -/
structure VCall where
  uid : UserId
  docId : DocId
  snapshot : DocumentRow
  file : UploadFile
  pc : Nat
  result : Option (Except String Unit)
deriving Repr

/-- The storage path an in-flight call uploads to — `uploadNewVersion`'s
`storagePath`, computed from the fetched snapshot. -/
def VCall.path (c : VCall) : String :=
  mkStoragePath c.snapshot.project_id c.docId (c.snapshot.current_version + 1)
    c.file.name

/-- One atomic step of an in-flight call: the same upload and atomic
version-write steps `uploadNewVersion` performs after its fetch, with a
failed step recording the error and finishing the call. -/
def callerStep (db : DB) (c : VCall) : DB × VCall :=
  match c.pc with
  | 0 =>
    match storagePut db c.path with
    | .error e =>
      (db, { c with pc := 2, result := some (.error ("Upload failed: " ++ e)) })
    | .ok db1 => (db1, { c with pc := 1 })
  | 1 =>
    match create_document_version db c.docId (c.snapshot.current_version + 1)
        c.path c.file.name c.file.size
        (if c.file.mime = "" then "application/octet-stream" else c.file.mime)
        c.uid with
    | .error e =>
      (db, { c with pc := 2, result := some (.error ("Version creation failed: " ++ e)) })
    | .ok db1 => (db1, { c with pc := 2, result := some (.ok ()) })
  | _ => (db, c)

/-- Interleave two in-flight calls under a schedule: a `true` entry steps
the first caller, a `false` entry the second. -/
def runSchedule (db : DB) (c1 c2 : VCall) : List Bool → DB × VCall × VCall
  | [] => (db, c1, c2)
  | b :: rest =>
    if b then
      let s := callerStep db c1
      runSchedule s.1 s.2 c2 rest
    else
      let s := callerStep db c2
      runSchedule s.1 c1 s.2 rest

/-- Two racing `uploadNewVersion` calls on document `d`, both having fetched
the same snapshot (issued at the same `currentVersion`), run to completion
under `sched`. -/
def raceOutcome (db : DB) (d : DocumentRow) (u1 u2 : UserId) (f1 f2 : UploadFile)
    (sched : List Bool) : DB × VCall × VCall :=
  runSchedule db ⟨u1, d.id, d, f1, 0, none⟩ ⟨u2, d.id, d, f2, 0, none⟩ sched

/-- What C5 demands of a finished race on document `d` at version
`N = d.current_version`: exactly one caller reports success and the other an
error, the document sits at `N + 1`, and exactly one `N + 1` version row
exists. -/
def exactlyOneCommits (out : DB × VCall × VCall) (d : DocumentRow) : Prop :=
  ((out.2.1.result = some (.ok ()) ∧ ∃ e, out.2.2.result = some (.error e)) ∨
    ((∃ e, out.2.1.result = some (.error e)) ∧ out.2.2.result = some (.ok ()))) ∧
  (out.1.documents.find? (fun x => x.id == d.id)).map
    (fun x => x.current_version) = some (d.current_version + 1) ∧
  out.1.document_versions.countP
    (fun v => v.document_id == d.id && v.version == d.current_version + 1) = 1

set_option maxHeartbeats 1600000 in
set_option maxRecDepth 4096 in
/-- C5: under every interleaving of the two calls' upload and atomic-write
steps, exactly one of two concurrent `uploadNewVersion` calls issued at the
same `currentVersion = N` commits version `N + 1`; the other observes an
error (the lost-race conflict of the atomic write, or the rejected upload to
the already-occupied path) — never both. -/
theorem c5_concurrent_addversion_exactly_one_commits (db : DB)
    (d : DocumentRow) (u1 u2 : UserId) (f1 f2 : UploadFile) (sched : List Bool)
    (hfind : db.documents.find? (fun x => x.id == d.id) = some d)
    (hnodup : db.document_versions.any
      (fun v => v.document_id == d.id && v.version == d.current_version + 1) = false)
    (hfree1 : mkStoragePath d.project_id d.id (d.current_version + 1) f1.name
      ∉ db.storage_objects)
    (hfree2 : mkStoragePath d.project_id d.id (d.current_version + 1) f2.name
      ∉ db.storage_objects)
    (hfault : "storage_put" ∉ db.faults)
    (hlen : sched.length = 4) (hcnt : sched.count true = 2) :
    exactlyOneCommits (raceOutcome db d u1 u2 f1 f2 sched) d := by
  have hcount0 : db.document_versions.countP
      (fun v => v.document_id == d.id && v.version == d.current_version + 1) = 0 :=
    List.countP_eq_zero.mpr (fun v hv => by
      have := List.any_eq_false.mp hnodup v hv
      simpa using this)
  have hbump := find?_map_bump_eq db.documents d.id (d.current_version + 1) d hfind
  have hs : sched = [true, true, false, false] ∨ sched = [true, false, true, false] ∨
      sched = [true, false, false, true] ∨ sched = [false, true, true, false] ∨
      sched = [false, true, false, true] ∨ sched = [false, false, true, true] := by
    rcases sched with _ | ⟨a, sched⟩
    · simp at hlen
    rcases sched with _ | ⟨b, sched⟩
    · simp at hlen
    rcases sched with _ | ⟨c, sched⟩
    · simp at hlen
    rcases sched with _ | ⟨e, sched⟩
    · simp at hlen
    rcases sched with _ | ⟨g, sched⟩
    · cases a <;> cases b <;> cases c <;> cases e <;>
        simp_all [List.count_cons, List.count_nil]
    · simp at hlen
  rcases hs with hs | hs | hs | hs | hs | hs <;> subst hs <;>
    by_cases hpp : mkStoragePath d.project_id d.id (d.current_version + 1) f2.name =
      mkStoragePath d.project_id d.id (d.current_version + 1) f1.name <;>
    first
      | (have hpp1 : ¬ (mkStoragePath d.project_id d.id (d.current_version + 1) f1.name =
              mkStoragePath d.project_id d.id (d.current_version + 1) f2.name) :=
            fun h => hpp (h.symm)
         simp [exactlyOneCommits, raceOutcome, runSchedule, callerStep, VCall.path,
            storagePut, create_document_version, hfind, hnodup, hfree1, hfree2, hfault,
            hpp, hpp1, hbump, hcount0, List.countP_append, List.countP_cons,
            List.any_append, -List.find?_map])
      | (simp [exactlyOneCommits, raceOutcome, runSchedule, callerStep, VCall.path,
            storagePut, create_document_version, hfind, hnodup, hfree1, hfault,
            hpp, hbump, hcount0, List.countP_append, List.countP_cons,
            List.any_append, -List.find?_map])

/-- C5 witness: two racers on `sampleDoc7` (at version 1) interleaved
upload/upload/write/write — exactly one commits version 2. -/
theorem c5_witness :
    exactlyOneCommits
      (raceOutcome sampleVersionedDB sampleDoc7 "lead1" "admin1"
        ⟨"x.png", 3, "image/png"⟩ ⟨"y.png", 4, "image/png"⟩
        [true, false, true, false])
      sampleDoc7 :=
  c5_concurrent_addversion_exactly_one_commits sampleVersionedDB sampleDoc7
    "lead1" "admin1" ⟨"x.png", 3, "image/png"⟩ ⟨"y.png", 4, "image/png"⟩
    [true, false, true, false] rfl rfl (by decide) (by decide) (by decide) rfl rfl

end PixelForge
